import Mathlib

/-!
Shallow embedding of the ts-cli library (src/mod.tsx): the token cursor
(`ArgIter`), the primitive matchers (`Builtin.STRING`, `Builtin.NUMBER`,
`Builtin.BOOLEAN`, `literal`), the combinators (`optional`, `or`, `named`),
the command dispatcher (`tryExecute`, `execute`), and the styled-text
renderer (`getString`, `getStyleString`) from src/fakeReact.tsx.

JavaScript particulars are embedded explicitly: `undefined` results become
`none`, the dynamic value universe `string|number|boolean|null` becomes the
inductive `Value`, JS truthiness (`if (first)`) becomes `Value.truthy`, and
the builtin `parseInt` (default radix) is modelled by `parseIntJS`.
-/

namespace TsCli

/-- The dynamic values produced by matchers: string, number, boolean or null.
JS `undefined` is represented as `none : Option Value` around this type. -/
inductive Value where
  | str (s : String)
  | num (n : Int)
  | bool (b : Bool)
  | null
deriving DecidableEq, Repr

/-- JS truthiness of a `Value`: the empty string, the number 0, `false` and
`null` are falsy, everything else is truthy. -/
def Value.truthy : Value → Bool
  | .str s => s != ""
  | .num n => n != 0
  | .bool b => b
  | .null => false

/-- JS truthiness of a possibly-`undefined` value (`undefined` is falsy). -/
def truthyOpt : Option Value → Bool
  | none => false
  | some v => v.truthy

/-- JS array indexing `l[i]` with a possibly negative `Int` index: `undefined`
(here `none`) when the index is negative or at least the length. -/
def jsIndex (l : List String) (i : Int) : Option String :=
  if 0 ≤ i then l[i.toNat]? else none

/-- JS `toLocaleLowerCase` restricted to ASCII (all strings compared by the
library are ASCII command words): each character is lowered individually. -/
def jsToLower (s : String) : String :=
  String.mk (s.data.map Char.toLower)

/-- The hexadecimal value of a character, as used by `parseInt`. -/
def digitVal (c : Char) : Option Nat :=
  if '0' ≤ c ∧ c ≤ '9' then some (c.toNat - '0'.toNat)
  else if 'a' ≤ c ∧ c ≤ 'f' then some (c.toNat - 'a'.toNat + 10)
  else if 'A' ≤ c ∧ c ≤ 'F' then some (c.toNat - 'A'.toNat + 10)
  else none

/-- The longest prefix of digits valid in the given radix. -/
def takeDigits (radix : Nat) : List Char → List Nat
  | [] => []
  | c :: cs =>
    match digitVal c with
    | some d => if d < radix then d :: takeDigits radix cs else []
    | none => []

/-- Model of the JS builtin `parseInt(s)` with no radix argument: skip leading
whitespace, read an optional sign, use radix 16 when the rest starts with
`0x`/`0X` and radix 10 otherwise, then convert the longest valid digit prefix;
`NaN` (no digits at all) is `none`.  Trailing non-digit characters are
tolerated, exactly as in JS. -/
def parseIntJS (s : String) : Option Int :=
  let cs := s.data.dropWhile Char.isWhitespace
  let signAndRest : Int × List Char :=
    match cs with
    | '-' :: rest => (-1, rest)
    | '+' :: rest => (1, rest)
    | _ => (1, cs)
  let radixAndRest : Nat × List Char :=
    match signAndRest.2 with
    | '0' :: 'x' :: rest => (16, rest)
    | '0' :: 'X' :: rest => (16, rest)
    | other => (10, other)
  let ds := takeDigits radixAndRest.1 radixAndRest.2
  if ds.isEmpty then none
  else some (signAndRest.1 * ds.foldl (fun acc d => acc * (radixAndRest.1 : Int) + (d : Int)) 0)

/-- The token cursor of src/mod.tsx (`class ArgIter`): the raw argument list
plus a position, initialised to `-1` ("before the first token"). -/
structure ArgIter where
  args : List String
  idx : Int
deriving DecidableEq, Repr

/-- `ArgIter.next` from src/mod.tsx: increment `idx`; when that runs past the
end, clamp `idx` to `args.length - 1` and return `undefined`; otherwise return
`args[idx]`. -/
def ArgIter.next (it : ArgIter) : Option String × ArgIter :=
  let idx := it.idx + 1
  if (it.args.length : Int) ≤ idx then
    (none, { it with idx := (it.args.length : Int) - 1 })
  else
    (jsIndex it.args idx, { it with idx := idx })

/-- `ArgIter.last` from src/mod.tsx: decrement `idx`; when that passes the
start, clamp `idx` to `0` and return `undefined`; otherwise return
`args[idx]`. -/
def ArgIter.last (it : ArgIter) : Option String × ArgIter :=
  let idx := it.idx - 1
  if idx < 0 then
    (none, { it with idx := 0 })
  else
    (jsIndex it.args idx, { it with idx := idx })

/-- `ArgData<T>` from src/mod.tsx, with the value type collapsed to `Value`
(the source erases it to `any` at dispatch time anyway).  `parse` threads the
cursor explicitly instead of mutating it. -/
structure ArgData where
  name : Option String := none
  type : String ⊕ List String
  parse : ArgIter → Option Value × ArgIter
  literal : Bool := false
  optional : Bool := false

/-- `Builtin.STRING`: returns `iter.next()` verbatim. -/
def Builtin.STRING : ArgData where
  type := .inl "string"
  parse := fun iter =>
    match iter.next with
    | (s, iter2) => (s.map Value.str, iter2)

/-- `Builtin.NUMBER`: one token through `parseInt`; the JS guard `if (!numStr)`
treats both `undefined` and the empty string as missing, and `isNaN` rejects
tokens with no leading digits. -/
def Builtin.NUMBER : ArgData where
  type := .inl "number"
  parse := fun iter =>
    match iter.next with
    | (none, iter2) => (none, iter2)
    | (some numStr, iter2) =>
      if numStr = "" then (none, iter2)
      else
        match parseIntJS numStr with
        | none => (none, iter2)
        | some num => (some (Value.num num), iter2)

/-- `Builtin.BOOLEAN`: one token, compared case-insensitively against
`"true"` and `"false"`; the guard `if (!str)` treats `undefined` and the empty
string as missing. -/
def Builtin.BOOLEAN : ArgData where
  type := .inl "boolean"
  parse := fun iter =>
    match iter.next with
    | (none, iter2) => (none, iter2)
    | (some str, iter2) =>
      if str = "" then (none, iter2)
      else if jsToLower str = "true" then (some (Value.bool true), iter2)
      else if jsToLower str = "false" then (some (Value.bool false), iter2)
      else (none, iter2)

/-- `literal(val)` from src/mod.tsx: one token, case-insensitive comparison
with `val`, marked `literal`; the guard `if (!next)` treats `undefined` and
the empty string as missing. -/
def literal (val : String) : ArgData where
  type := .inl val
  parse := fun args =>
    match args.next with
    | (none, iter2) => (none, iter2)
    | (some next, iter2) =>
      if next = "" then (none, iter2)
      else if jsToLower next = jsToLower val then (some (Value.bool true), iter2)
      else (none, iter2)
  literal := true

/-- `optional(type)` from src/mod.tsx: record `startIdx`, run the wrapped
parse, then write `startIdx` back unconditionally, and return
`parse ?? null`. -/
def optional (type_ : ArgData) : ArgData where
  type := type_.type
  parse := fun args =>
    let startIdx := args.idx
    let res := type_.parse args
    let args2 := { res.2 with idx := startIdx }
    (some (res.1.getD Value.null), args2)
  optional := true

/-- The construction-time errors `error.or.literal` / `error.or.optional`
thrown by `or` in src/mod.tsx, carrying the offending operand. -/
inductive OrError where
  | literalErr (t : ArgData)
  | optionalErr (t : ArgData)

/-- `or(type1, type2)` from src/mod.tsx.  The construction-time `throw`s are
modelled as `Except.error` (the fourth check blames `type1` in its error
value, as the source does); the returned matcher tries `type1`, keeps its
result when it is truthy (`if (first)` is a JS truthiness test), and otherwise
rewinds `idx` to the shared start and returns `type2`'s result unmodified. -/
def or (type1 type2 : ArgData) : Except OrError ArgData :=
  if type1.literal then .error (.literalErr type1)
  else if type2.literal then .error (.literalErr type2)
  else if type1.optional then .error (.optionalErr type1)
  else if type2.optional then .error (.optionalErr type1)
  else
    let type :=
      (match type1.type with | .inl s => [s] | .inr l => l) ++
      (match type2.type with | .inl s => [s] | .inr l => l)
    .ok {
      type := .inr type
      parse := fun args =>
        let startIdx := args.idx
        let res := type1.parse args
        if truthyOpt res.1 then res
        else
          let args2 := { res.2 with idx := startIdx }
          type2.parse args2 }

/-- `named(arg, name)` from src/mod.tsx: `{ name, ...arg }` — note the spread
comes after `name`, so an existing `name` property on `arg` wins. -/
def named (arg : ArgData) (name : String) : ArgData :=
  { arg with name := some (arg.name.getD name) }

/-- One command registration (`Argument<T>` from src/mod.tsx): its matcher
list and description.  The callback is not stored; `tryExecute` below returns
the argument vector the callback would receive instead of invoking it. -/
structure Argument where
  args : List ArgData
  description : Option String := none

/-- The matcher loop of `CLI.tryExecute`: run each matcher in order on the
threaded cursor; `undefined` (strict `=== undefined` in the source) abandons
the command; non-literal values are appended to the pending argument list. -/
def tryExecuteArgs : List ArgData → ArgIter → List Value → Option (List Value)
  | [], _iter, input => some input
  | type :: rest, iter, input =>
    let res := type.parse iter
    match res.1 with
    | none => none
    | some parsed =>
      tryExecuteArgs rest res.2 (if type.literal then input else input ++ [parsed])

/-- `CLI.tryExecute` from src/mod.tsx: a fresh cursor over the token list
(`new ArgIter()` reads the process arguments; here they are passed in), then
the matcher loop; `some input` means the command's callback is invoked with
exactly `input`. -/
def tryExecute (arg : Argument) (tokens : List String) : Option (List Value) :=
  tryExecuteArgs arg.args { args := tokens, idx := -1 } []

/-- `CLI.execute` from src/mod.tsx: try each registered command in order and
stop at the first whose `tryExecute` succeeds.  Returns the index of the
invoked command and the callback's argument vector; `none` models the
fall-through to `printHelp()`. -/
def execute : List Argument → List String → Option (Nat × List Value)
  | [], _tokens => none
  | arg :: rest, tokens =>
    match tryExecute arg tokens with
    | some input => some (0, input)
    | none => (execute rest tokens).map (fun p => (p.1 + 1, p.2))

/-- The style keys (`JSX.Key` from src/fakeReact.tsx): the control key
`reset`, four text attributes, nine foreground colors, nine background colors
(written `bg-...` in the source) and the two structural keys `br` and
`tab`. -/
inductive Key where
  | reset | bold | italic | underline | strikethrough
  | black | red | green | yellow | blue | magenta | cyan | white | default
  | bgBlack | bgRed | bgGreen | bgYellow | bgBlue | bgMagenta | bgCyan | bgWhite | bgDefault
  | br | tab
deriving DecidableEq, Repr

/-- The `FG_COLOR` list from `getString`. -/
def FG_COLOR : List Key :=
  [.black, .red, .green, .yellow, .blue, .magenta, .cyan, .white, .default]

/-- The `BG_COLOR` list from `getString`. -/
def BG_COLOR : List Key :=
  [.bgBlack, .bgRed, .bgGreen, .bgYellow, .bgBlue, .bgMagenta, .bgCyan, .bgWhite, .bgDefault]

/-- The `getStyle` switch from src/fakeReact.tsx: SGR code of one key
(default case 0). -/
def getStyle : Key → Nat
  | .black => 30
  | .red => 31
  | .green => 32
  | .yellow => 33
  | .blue => 34
  | .magenta => 35
  | .cyan => 36
  | .white => 37
  | .default => 39
  | .bgBlack => 40
  | .bgRed => 41
  | .bgGreen => 42
  | .bgYellow => 43
  | .bgBlue => 44
  | .bgMagenta => 45
  | .bgCyan => 46
  | .bgWhite => 47
  | .bgDefault => 49
  | .bold => 1
  | .italic => 3
  | .underline => 4
  | .strikethrough => 9
  | _ => 0

/-- One iteration of the `for (let curr of style)` loop inside
`getStyleString`: a foreground color removes every foreground color already
accumulated and is appended; likewise for background colors; a key already
accumulated runs `styles.filter(key => styles.indexOf(curr) == -1)` — whose
predicate ignores `key` and is false in this branch — and is then appended;
`"reset"` empties the accumulation; anything else is appended. -/
def styleStep (styles : List Key) (curr : Key) : List Key :=
  if FG_COLOR.contains curr then
    styles.filter (fun key => !(FG_COLOR.contains key)) ++ [curr]
  else if BG_COLOR.contains curr then
    styles.filter (fun key => !(BG_COLOR.contains key)) ++ [curr]
  else if styles.contains curr then
    styles.filter (fun _key => !(styles.contains curr)) ++ [curr]
  else if curr = .reset then []
  else styles ++ [curr]

/-- The accumulated `styles` list computed by `getStyleString` from the style
stack. -/
def styleList (style : List Key) : List Key :=
  style.foldl styleStep []

/-- `getStyleString` from src/fakeReact.tsx: the flattened SGR codes of the
style stack, joined with `;`. -/
def getStyleString (style : List Key) : String :=
  String.intercalate ";" ((styleList style).map (fun k => toString (getStyle k)))

/-- The text appended by `printStyle`: `ESC [ 0 ; codes m` for the current
stack. -/
def styleEscape (style : List Key) : String :=
  "\u001b[0;" ++ getStyleString style ++ "m"

mutual
/-- A node of the styled tree (`class Node` from src/fakeReact.tsx): an
optional name (a style key), the `idt` entry of its `params` record (the only
parameter `getString` reads), and its children. -/
inductive RNode where
  | mk (name : Option Key) (idt : Option Nat) (children : List RChild)
/-- A child of a styled node: a collapsed text fragment or a nested node. -/
inductive RChild where
  | text (s : String)
  | node (n : RNode)
end

mutual
/-- `getString(node, style)` from src/fakeReact.tsx, with the mutated `style`
array threaded explicitly: the output string together with the final state of
the style stack.  A `br` node renders as a newline and a `tab` node as
`idt`-many spaces (default 1), both before any stack manipulation; a named
node pushes its name, emits the flattened escape for the whole stack, renders
its children, pops, and re-emits the escape for the shorter stack. -/
def getString : RNode → List Key → String × List Key
  | .mk name _idt children, style =>
    if name = some Key.br then ("\n", style)
    else if name = some Key.tab then
      (String.mk (List.replicate (_idt.getD 1) ' '), style)
    else
      match name with
      | some n =>
        let style1 := style ++ [n]
        let head := styleEscape style1
        let res := getStringChildren children style1
        let style2 := res.2.dropLast
        (head ++ res.1 ++ styleEscape style2, style2)
      | none => getStringChildren children style

/-- The `for (let child of node.children)` loop of `getString`: strings are
appended verbatim, nodes are rendered recursively against the shared stack. -/
def getStringChildren : List RChild → List Key → String × List Key
  | [], style => ("", style)
  | .text s :: rest, style =>
    let res := getStringChildren rest style
    (s ++ res.1, res.2)
  | .node n :: rest, style =>
    let res := getString n style
    let res2 := getStringChildren rest res.2
    (res.1 ++ res2.1, res2.2)
end

/-! Helper lemmas shared by the claim theorems. -/

mutual
/-- Rendering a node leaves the style stack exactly as it was on entry. -/
theorem getString_stack_eq : ∀ (n : RNode) (style : List Key),
    (getString n style).2 = style
  | .mk name idt children, style => by
    unfold getString
    split
    · rfl
    · split
      · rfl
      · match name with
        | some n =>
          simp only
          rw [getStringChildren_stack_eq children (style ++ [n])]
          exact List.dropLast_concat
        | none =>
          simp only
          exact getStringChildren_stack_eq children style

/-- Rendering a child list leaves the style stack exactly as it was on
entry. -/
theorem getStringChildren_stack_eq : ∀ (cs : List RChild) (style : List Key),
    (getStringChildren cs style).2 = style
  | [], _ => rfl
  | .text s :: rest, style => by
    simp only [getStringChildren]
    exact getStringChildren_stack_eq rest style
  | .node n :: rest, style => by
    simp only [getStringChildren]
    rw [getStringChildren_stack_eq rest (getString n style).2]
    exact getString_stack_eq n style
end

/-- One cursor operation: a `next()` or a `last()` call. -/
inductive CursorOp where
  | next
  | last

/-- Run a sequence of `next()`/`last()` calls on a cursor, keeping only the
final cursor state. -/
def runOps (it : ArgIter) : List CursorOp → ArgIter
  | [] => it
  | .next :: rest => runOps (it.next).2 rest
  | .last :: rest => runOps (it.last).2 rest

/-- States reachable from the initial position satisfy: the token list is
unchanged, the position is at least `-1`, and the position is at most
`max (length - 1) 0`. -/
theorem runOps_inv (ops : List CursorOp) (it : ArgIter)
    (h1 : -1 ≤ it.idx) (h2 : it.idx ≤ max ((it.args.length : Int) - 1) 0) :
    (runOps it ops).args = it.args ∧ -1 ≤ (runOps it ops).idx ∧
      (runOps it ops).idx ≤ max ((it.args.length : Int) - 1) 0 := by
  induction ops generalizing it with
  | nil => exact ⟨rfl, h1, h2⟩
  | cons op rest ih =>
    cases op with
    | next =>
      have hstep : ((it.next).2).args = it.args ∧ -1 ≤ ((it.next).2).idx ∧
          ((it.next).2).idx ≤ max ((it.args.length : Int) - 1) 0 := by
        simp only [ArgIter.next]
        split
        · refine ⟨rfl, ?_, ?_⟩ <;> simp <;> try omega
        · refine ⟨rfl, ?_, ?_⟩ <;> simp <;> try omega
      have := ih (it.next).2 hstep.2.1 (hstep.1 ▸ hstep.2.2)
      rw [runOps]
      exact ⟨this.1.trans hstep.1, this.2.1, by rw [hstep.1] at this; exact this.2.2⟩
    | last =>
      have hstep : ((it.last).2).args = it.args ∧ -1 ≤ ((it.last).2).idx ∧
          ((it.last).2).idx ≤ max ((it.args.length : Int) - 1) 0 := by
        simp only [ArgIter.last]
        split
        · refine ⟨rfl, ?_, ?_⟩ <;> simp <;> try omega
        · refine ⟨rfl, ?_, ?_⟩ <;> simp <;> try omega
      have := ih (it.last).2 hstep.2.1 (hstep.1 ▸ hstep.2.2)
      rw [runOps]
      exact ⟨this.1.trans hstep.1, this.2.1, by rw [hstep.1] at this; exact this.2.2⟩

/-! Claim theorems. -/

/-- C1, counterexample: `Builtin.NUMBER` on the single token `"abc"` (cursor
at the initial position `-1`) returns absence, yet the cursor ends at
position `0`, not at its entry position `-1` — failure does leave the cursor
advanced, so the claimed invariant is false. -/
theorem number_parse_failure_moves_cursor :
    Builtin.NUMBER.parse { args := ["abc"], idx := -1 } =
      (none, { args := ["abc"], idx := 0 }) ∧ (0 : Int) ≠ -1 := by
  decide

/-- C1, amended: the builtin primitive matchers never rewind — after
`STRING`, `NUMBER`, `BOOLEAN` or `literal v` parses (whether it succeeds or
returns absence), the cursor is exactly the cursor `next()` produced, i.e.
the entry position advanced by one and clamped; in particular a failing
primitive does not restore the entry position.  Cursor restoration is done by
the `or` and `optional` combinators instead. -/
theorem primitives_cursor_at_next (it : ArgIter) (v : String) :
    (Builtin.STRING.parse it).2 = (it.next).2 ∧
    (Builtin.NUMBER.parse it).2 = (it.next).2 ∧
    (Builtin.BOOLEAN.parse it).2 = (it.next).2 ∧
    ((literal v).parse it).2 = (it.next).2 := by
  rcases h : it.next with ⟨o, it2⟩
  refine ⟨?_, ?_, ?_, ?_⟩
  · cases o <;> simp [Builtin.STRING, h]
  · cases o with
    | none => simp [Builtin.NUMBER, h]
    | some s =>
      simp only [Builtin.NUMBER, h]
      split
      · rfl
      · rcases parseIntJS s with _ | n <;> rfl
  · cases o with
    | none => simp [Builtin.BOOLEAN, h]
    | some s =>
      simp only [Builtin.BOOLEAN, h]
      split
      · rfl
      · split
        · rfl
        · split <;> rfl
  · cases o with
    | none => simp [literal, h]
    | some s =>
      simp only [literal, h]
      split
      · rfl
      · split <;> rfl

/-- C2, counterexample: `optional(STRING)` on the single token `"a"` succeeds
with the value `"a"`, yet the final cursor position is the pre-attempt
position `-1` and not the position `0` at which `STRING`'s own parse left the
cursor — `optional` rewinds even on success. -/
theorem optional_success_rewinds_cursor :
    (optional Builtin.STRING).parse { args := ["a"], idx := -1 } =
      (some (Value.str "a"), { args := ["a"], idx := -1 }) ∧
    (Builtin.STRING.parse { args := ["a"], idx := -1 }).2.idx = 0 ∧
    (-1 : Int) ≠ 0 := by
  decide

/-- C2, amended: for every matcher `M` and every cursor state,
`optional(M).parse` returns a present value — `M`'s parsed value when `M`
succeeds and the `null` marker when it fails — and the cursor position is
always restored to the pre-attempt position, on success as well as on
failure (the token list is whatever `M`'s parse left). -/
theorem optional_always_present_and_rewinds (t : ArgData) (args : ArgIter) :
    ((optional t).parse args).1 = some (((t.parse args).1).getD Value.null) ∧
    ((optional t).parse args).2.idx = args.idx ∧
    ((optional t).parse args).2.args = ((t.parse args).2).args :=
  ⟨rfl, rfl, rfl⟩

/-- C3, counterexample: `or(NUMBER, STRING)` on the single token `"0"`, where
both operands succeed (`NUMBER` with the value `0`): the combined matcher
returns `STRING`'s value `"0"`, not `NUMBER`'s value `0` — a successful but
falsy first result falls through to the second alternative. -/
theorem or_falls_through_on_zero :
    (TsCli.or Builtin.NUMBER Builtin.STRING).toOption.map
        (fun d => d.parse { args := ["0"], idx := -1 }) =
      some (some (Value.str "0"), { args := ["0"], idx := 0 }) ∧
    Builtin.NUMBER.parse { args := ["0"], idx := -1 } =
      (some (Value.num 0), { args := ["0"], idx := 0 }) ∧
    Value.str "0" ≠ Value.num 0 := by
  decide

/-- C3, amended: `or(A,B)` is left-biased only up to JS truthiness — for
operands accepted by the construction-time checks and any cursor state, if
`A`'s parse produces a truthy value (not `0`, `false`, the empty string or
`null`), then the combined parse returns exactly `A`'s result, value and
cursor alike; a falsy success of `A` instead falls through to `B`. -/
theorem or_left_biased_truthy (t1 t2 : ArgData) (args : ArgIter)
    (h1 : t1.literal = false) (h2 : t2.literal = false)
    (h3 : t1.optional = false) (h4 : t2.optional = false)
    (ht : truthyOpt (t1.parse args).1 = true) :
    (TsCli.or t1 t2).toOption.map (fun d => d.parse args) =
      some (t1.parse args) := by
  simp only [TsCli.or, h1, h2, h3, h4, Bool.false_eq_true, if_false,
    Except.toOption, Option.map_some']
  simp only [ht, if_true]

/-- C3, witness: the left bias at a concrete truthy input — `or(NUMBER,
BOOLEAN)` on the token `"5"` returns exactly `NUMBER`'s result. -/
theorem or_left_biased_truthy_witness :
    (TsCli.or Builtin.NUMBER Builtin.BOOLEAN).toOption.map
        (fun d => d.parse { args := ["5"], idx := -1 }) =
      some (Builtin.NUMBER.parse { args := ["5"], idx := -1 }) :=
  or_left_biased_truthy Builtin.NUMBER Builtin.BOOLEAN _ rfl rfl rfl rfl (by decide)

/-- C7: `or` construction fails with an error exactly when one of the
operands is a literal matcher or an optional matcher, and succeeds otherwise;
the error is produced by the constructor itself, before the combined parse
function can ever run. -/
theorem or_construction_error_iff (t1 t2 : ArgData) :
    (∃ e, TsCli.or t1 t2 = Except.error e) ↔
      (t1.literal = true ∨ t2.literal = true ∨
       t1.optional = true ∨ t2.optional = true) := by
  simp only [TsCli.or]
  split_ifs with h1 h2 h3 h4 <;> simp_all

/-- C9, counterexample: `NUMBER` accepts `"12abc"` (returning `12`) although
that token is not a valid integer, and parses `"0x10"` as hexadecimal `16`
rather than as a base-10 integer — so "absence iff the token is missing or
not a valid integer" and "parsed as a base-10 integer" both fail. -/
theorem number_accepts_garbage_and_hex :
    Builtin.NUMBER.parse { args := ["12abc"], idx := -1 } =
      (some (Value.num 12), { args := ["12abc"], idx := 0 }) ∧
    Builtin.NUMBER.parse { args := ["0x10"], idx := -1 } =
      (some (Value.num 16), { args := ["0x10"], idx := 0 }) := by
  decide

/-- C9, amended: `NUMBER` consumes exactly one token (its cursor is the one
`next()` produced) and applies JS `parseInt` default-radix semantics
(`parseIntJS`): it returns absence if and only if the token is missing, the
token is the empty string, or the token has no parsable digit prefix; when
`parseIntJS` yields a number, that number is returned. -/
theorem number_parse_characterization (it : ArgIter) :
    (Builtin.NUMBER.parse it).2 = (it.next).2 ∧
    ((Builtin.NUMBER.parse it).1 = none ↔
      ((it.next).1 = none ∨
        ∃ s, (it.next).1 = some s ∧ (s = "" ∨ parseIntJS s = none))) ∧
    (∀ s n, (it.next).1 = some s → s ≠ "" → parseIntJS s = some n →
      (Builtin.NUMBER.parse it).1 = some (Value.num n)) := by
  rcases h : it.next with ⟨o, it2⟩
  cases o with
  | none => simp [Builtin.NUMBER, h]
  | some s =>
    simp only [Builtin.NUMBER, h]
    by_cases hs : s = ""
    · subst hs
      refine ⟨rfl, by simp, ?_⟩
      intro s1 n he hne
      injection he with he2
      exact absurd he2.symm hne
    · rcases hp : parseIntJS s with _ | n
      · refine ⟨by simp [hs], ?_, ?_⟩
        · simp [hs, hp]
        · intro s1 n he hne hp1
          injection he with he2
          subst he2
          rw [hp] at hp1
          exact absurd hp1 (by simp)
      · refine ⟨by simp [hs], ?_, ?_⟩
        · simp [hs, hp]
        · intro s1 n1 he hne hp1
          injection he with he2
          subst he2
          rw [hp] at hp1
          injection hp1 with he3
          subst he3
          simp [hs, hp]

/-- C9, witness: the characterization applied at the concrete token `"42x"`,
whose digit prefix parses to `42`. -/
theorem number_parse_characterization_witness :
    (Builtin.NUMBER.parse { args := ["42x"], idx := -1 }).1 =
      some (Value.num 42) :=
  (number_parse_characterization { args := ["42x"], idx := -1 }).2.2
    "42x" 42 rfl (by decide) (by decide)

/-- C10: rendering any styled node against any incoming style stack returns
with the stack holding exactly the entries it held on entry — every push of a
node's style name is matched by one pop, so one subtree never leaks style
entries into its siblings. -/
theorem getString_preserves_style_stack (n : RNode) (style : List Key) :
    (getString n style).2 = style :=
  getString_stack_eq n style

/-- The example command `[literal("add"), NUMBER, NUMBER]` used by the spec's
dispatch example. -/
def addCommand : Argument :=
  { args := [literal "add", Builtin.NUMBER, Builtin.NUMBER] }

/-- A second command, registered before the example command to exercise
registration order. -/
def subCommand : Argument :=
  { args := [literal "sub", Builtin.NUMBER, Builtin.NUMBER] }

/-- C4: `execute` invokes the callback of the first command in registration
order whose whole matcher sequence parses the tokens from the start, with
exactly the non-literal matchers' parsed values in order (a literal consumes
its token but contributes no argument), and no earlier command matches; in
particular `["add","3","4"]` against `[literal("add"), NUMBER, NUMBER]`
yields the callback arguments `(3, 4)`, not `("add", 3, 4)`. -/
theorem execute_first_match :
    execute [addCommand] ["add", "3", "4"] =
      some (0, [Value.num 3, Value.num 4]) ∧
    ∀ (cmds : List Argument) (tokens : List String) (i : Nat) (v : List Value)
      (c : Argument), execute cmds tokens = some (i, v) → cmds[i]? = some c →
      (tryExecute c tokens = some v ∧
        ∀ j c2, j < i → cmds[j]? = some c2 → tryExecute c2 tokens = none) := by
  constructor
  · decide
  · intro cmds
    induction cmds with
    | nil =>
      intro tokens i v c h
      simp [execute] at h
    | cons a rest ih =>
      intro tokens i v c h hc
      rcases ht : tryExecute a tokens with _ | input
      · rw [execute, ht] at h
        simp only [Option.map_eq_some'] at h
        obtain ⟨p, hp, hpe⟩ := h
        obtain ⟨hi, hv⟩ := Prod.mk.injEq _ _ _ _ ▸ hpe
        subst hi
        subst hv
        rw [List.getElem?_cons_succ] at hc
        have hrest := ih tokens p.1 p.2 c (by rw [hp]) hc
        refine ⟨hrest.1, ?_⟩
        intro j c2 hj hc2
        cases j with
        | zero =>
          rw [List.getElem?_cons_zero] at hc2
          injection hc2 with hc2e
          rw [hc2e] at ht
          exact ht
        | succ k =>
          rw [List.getElem?_cons_succ] at hc2
          exact hrest.2 k c2 (Nat.lt_of_succ_lt_succ hj) hc2
      · rw [execute, ht] at h
        injection h with he
        obtain ⟨hi, hv⟩ := Prod.mk.injEq _ _ _ _ ▸ he
        subst hv
        rw [← hi] at hc ⊢
        rw [List.getElem?_cons_zero] at hc
        injection hc with hce
        refine ⟨by rw [← hce]; exact ht, ?_⟩
        intro j c2 hj
        exact absurd hj (Nat.not_lt_zero j)

/-- C4, witness: the general first-match property applied to the concrete
registration `[subCommand, addCommand]` and the tokens `["add","3","4"]`,
where dispatch skips the first command and runs the second with arguments
`(3, 4)`. -/
theorem execute_first_match_witness :
    tryExecute addCommand ["add", "3", "4"] =
      some [Value.num 3, Value.num 4] :=
  (execute_first_match.2 [subCommand, addCommand] ["add", "3", "4"] 1
    [Value.num 3, Value.num 4] addCommand (by decide) rfl).1

/-- C5: nested style restore — rendering a node styled with foreground color
`A` whose children are text, a nested node styled `B` with text, and trailing
text: closing the inner `B` node re-emits the escape for the remaining stack
`[A]`, whose flattened code is exactly `A`'s SGR code (while `B` was open the
flattened code was exactly `B`'s, since a later foreground replaces an
earlier one), and that escape differs from the empty-stack (terminal default)
escape — the trailing text is styled exactly as if only `A` were open. -/
theorem nested_color_restores_parent (a b : Key)
    (ha : a ∈ FG_COLOR) (hb : b ∈ FG_COLOR) (hne : a ≠ b) :
    getString
        (.mk (some a) none
          [.text "x", .node (.mk (some b) none [.text "y"]), .text "z"]) [] =
      (styleEscape [a] ++ "x" ++ styleEscape [a, b] ++ "y" ++
        styleEscape [a] ++ "z" ++ styleEscape [], []) ∧
    getStyleString [a, b] = toString (getStyle b) ∧
    getStyleString [a] = toString (getStyle a) ∧
    styleEscape [a] ≠ styleEscape [] := by
  fin_cases ha <;> fin_cases hb <;> decide

/-- C5, witness: the nested-restore property at the concrete pair red/green;
the restored escape is red's code, not the terminal default. -/
theorem nested_color_restores_parent_witness :
    styleEscape [Key.red] ≠ styleEscape [] :=
  (nested_color_restores_parent Key.red Key.green (by decide) (by decide)
    (by decide)).2.2.2

/-- One step of the flattening loop never introduces the `reset` key into the
accumulated list. -/
theorem reset_not_mem_styleStep (acc : List Key) (c : Key)
    (h : Key.reset ∉ acc) : Key.reset ∉ styleStep acc c := by
  unfold styleStep
  split_ifs with h1 h2 h3 h4
  · intro hm
    rcases List.mem_append.mp hm with hm1 | hm1
    · exact h (List.mem_of_mem_filter hm1)
    · rw [List.mem_singleton] at hm1
      rw [← hm1] at h1
      exact absurd h1 (by decide)
  · intro hm
    rcases List.mem_append.mp hm with hm1 | hm1
    · exact h (List.mem_of_mem_filter hm1)
    · rw [List.mem_singleton] at hm1
      rw [← hm1] at h2
      exact absurd h2 (by decide)
  · intro hm
    rcases List.mem_append.mp hm with hm1 | hm1
    · exact h (List.mem_of_mem_filter hm1)
    · rw [List.mem_singleton] at hm1
      rw [← hm1] at h3
      exact h (List.elem_iff.mp h3)
  · exact List.not_mem_nil _
  · intro hm
    rcases List.mem_append.mp hm with hm1 | hm1
    · exact h hm1
    · rw [List.mem_singleton] at hm1
      exact h4 hm1.symm

/-- The flattening loop never accumulates the `reset` key. -/
theorem reset_not_mem_styleList_aux (s acc : List Key)
    (h : Key.reset ∉ acc) : Key.reset ∉ List.foldl styleStep acc s := by
  induction s generalizing acc with
  | nil => exact h
  | cons c rest ih => exact ih (styleStep acc c) (reset_not_mem_styleStep acc c h)

/-- A true `contains` test is a membership fact. -/
theorem contains_true_mem {l : List Key} {a : Key}
    (h : l.contains a = true) : a ∈ l :=
  List.elem_iff.mp h

/-- A false `contains` test is a non-membership fact. -/
theorem contains_false_not_mem {l : List Key} {a : Key}
    (h : l.contains a = false) : a ∉ l := by
  intro hm
  have h2 : l.contains a = true := List.elem_iff.mpr hm
  rw [h2] at h
  exact Bool.noConfusion h

/-- Flattening a stack extended by one key is one step of the loop applied to
the flattening of the shorter stack. -/
theorem styleList_append_single (s : List Key) (c : Key) :
    styleList (s ++ [c]) = styleStep (styleList s) c := by
  simp only [styleList, List.foldl_append, List.foldl_cons, List.foldl_nil]

/-- C6, counterexample: flattening the stack `[bold, italic, bold]` — pushing
`bold` while it is already active — yields `[bold]`: the repeated attribute
is not toggled out (it is still present) and the other active attribute
`italic` has been cleared, contradicting the claimed toggle rule, which would
leave `[italic]`. -/
theorem repeated_attribute_not_toggled :
    styleList [Key.bold, Key.italic, Key.bold] = [Key.bold] ∧
    Key.bold ∈ styleList [Key.bold, Key.italic, Key.bold] ∧
    Key.italic ∉ styleList [Key.bold, Key.italic, Key.bold] := by
  decide

/-- C6, amended: in the flattened style, a foreground color pushed last
replaces every earlier foreground color (and likewise for background colors),
and a `reset` key clears the effect of every entry below it; but pushing a
non-color key that is already active does not toggle it out — instead the
buggy filter `styles.filter(key => styles.indexOf(curr) == -1)` (a predicate
that ignores `key` and is false throughout this branch) clears the whole
accumulated list and then re-adds the pushed key, leaving exactly `[curr]`. -/
theorem style_flatten_rules :
    (∀ (s : List Key) (c : Key), FG_COLOR.contains c = true →
      styleList (s ++ [c]) =
        (styleList s).filter (fun k => !(FG_COLOR.contains k)) ++ [c]) ∧
    (∀ (s : List Key) (c : Key), FG_COLOR.contains c = false →
      BG_COLOR.contains c = true →
      styleList (s ++ [c]) =
        (styleList s).filter (fun k => !(BG_COLOR.contains k)) ++ [c]) ∧
    (∀ s : List Key, styleList (s ++ [Key.reset]) = []) ∧
    (∀ (s : List Key) (c : Key), FG_COLOR.contains c = false →
      BG_COLOR.contains c = false → (styleList s).contains c = true →
      styleList (s ++ [c]) = [c]) := by
  refine ⟨?_, ?_, ?_, ?_⟩
  · intro s c h
    rw [styleList_append_single]
    simp only [styleStep]
    simp [contains_true_mem h]
  · intro s c h1 h2
    rw [styleList_append_single]
    simp only [styleStep]
    simp [contains_false_not_mem h1, contains_true_mem h2]
  · intro s
    have hmr : Key.reset ∉ styleList s :=
      reset_not_mem_styleList_aux s [] (List.not_mem_nil _)
    rw [styleList_append_single]
    simp only [styleStep]
    simp [hmr, show Key.reset ∉ FG_COLOR from by decide,
      show Key.reset ∉ BG_COLOR from by decide]
  · intro s c h1 h2 h3
    have hm3 : c ∈ styleList s := contains_true_mem h3
    rw [styleList_append_single]
    simp only [styleStep]
    simp [contains_false_not_mem h1, contains_false_not_mem h2, hm3,
      List.filter_false]

/-- C6, witness: pushing green onto a stack holding red replaces the earlier
foreground color. -/
theorem style_flatten_rules_witness :
    styleList ([Key.red] ++ [Key.green]) =
      (styleList [Key.red]).filter (fun k => !(FG_COLOR.contains k)) ++
        [Key.green] :=
  style_flatten_rules.1 [Key.red] Key.green rfl

/-- C8: for every token list and every sequence of `next()`/`last()` calls
starting from the initial cursor: a `next()` whose advance would run past the
last token returns absence and clamps the position at `length - 1`; a
`next()` that returns a token reads it at the in-bounds position `idx + 1`;
a `last()` whose retreat would pass the start returns absence and clamps the
position at `0`; a `last()` that returns a token reads it at the in-bounds
position `idx - 1`.  Both operations are total functions in this model (no
exception path exists) and every token returned comes from an in-bounds index
of the token list. -/
theorem argIter_clamp_and_bounds (args : List String) (ops : List CursorOp)
    (it : ArgIter) (hit : it = runOps { args := args, idx := -1 } ops) :
    ((it.next).1 = none → (it.next).2.idx = (args.length : Int) - 1) ∧
    (∀ s, (it.next).1 = some s → 0 ≤ it.idx + 1 ∧
      it.idx + 1 < (args.length : Int) ∧
      args[(it.idx + 1).toNat]? = some s ∧ (it.next).2.idx = it.idx + 1) ∧
    ((it.last).1 = none → (it.last).2.idx = 0) ∧
    (∀ s, (it.last).1 = some s → 0 ≤ it.idx - 1 ∧
      it.idx - 1 < (args.length : Int) ∧
      args[(it.idx - 1).toNat]? = some s ∧ (it.last).2.idx = it.idx - 1) := by
  have hinv := runOps_inv ops { args := args, idx := -1 } (by simp)
    (by simp only; rcases Nat.eq_zero_or_pos args.length with h0 | h0 <;> simp [h0] <;> omega)
  rw [← hit] at hinv
  obtain ⟨ha, hlo, hhi⟩ := hinv
  simp only at ha hhi
  have hdisj : it.idx ≤ (args.length : Int) - 1 ∨ it.idx ≤ 0 := le_max_iff.mp hhi
  have hlen : (it.args.length : Int) = (args.length : Int) := by rw [ha]
  refine ⟨?_, ?_, ?_, ?_⟩
  · intro hn
    by_cases hc : (it.args.length : Int) ≤ it.idx + 1
    · rw [hlen] at hc
      simp [ArgIter.next, hlen, hc]
    · exfalso
      simp only [ArgIter.next, if_neg hc] at hn
      simp only [jsIndex] at hn
      rw [if_pos (by omega : (0 : Int) ≤ it.idx + 1)] at hn
      rw [List.getElem?_eq_none_iff] at hn
      rw [hlen] at hc
      rw [ha] at hn
      omega
  · intro s hs
    by_cases hc : (it.args.length : Int) ≤ it.idx + 1
    · simp [ArgIter.next, hc] at hs
    · simp only [ArgIter.next, if_neg hc] at hs
      simp only [jsIndex] at hs
      rw [if_pos (by omega : (0 : Int) ≤ it.idx + 1)] at hs
      rw [ha] at hs
      rw [hlen] at hc
      refine ⟨by omega, by omega, hs, ?_⟩
      simp [ArgIter.next, hlen, hc]
  · intro hn
    by_cases hc : it.idx - 1 < 0
    · simp [ArgIter.last, hc]
    · exfalso
      simp only [ArgIter.last, if_neg hc] at hn
      simp only [jsIndex] at hn
      rw [if_pos (by omega : (0 : Int) ≤ it.idx - 1)] at hn
      rw [List.getElem?_eq_none_iff] at hn
      rw [ha] at hn
      rcases hdisj with h5 | h5 <;> omega
  · intro s hs
    by_cases hc : it.idx - 1 < 0
    · simp [ArgIter.last, hc] at hs
    · simp only [ArgIter.last, if_neg hc] at hs
      simp only [jsIndex] at hs
      rw [if_pos (by omega : (0 : Int) ≤ it.idx - 1)] at hs
      rw [ha] at hs
      have hb : it.idx - 1 < (args.length : Int) := by
        rcases hdisj with h5 | h5
        · omega
        · exfalso
          have := List.getElem?_eq_none (l := args) (n := (it.idx - 1).toNat) (by omega)
          rw [this] at hs
          exact Option.noConfusion hs
      refine ⟨by omega, hb, hs, ?_⟩
      simp [ArgIter.last, hc]

/-- C8, witness: a `last()` on the freshly initialised cursor (position `-1`)
returns absence and clamps the position at `0`. -/
theorem argIter_clamp_and_bounds_witness :
    ((runOps { args := ["a"], idx := -1 } []).last).2.idx = 0 :=
  (argIter_clamp_and_bounds ["a"] [] (runOps { args := ["a"], idx := -1 } [])
    rfl).2.2.1 (by decide)

end TsCli
